import Mathlib

/-!
Verification of the Everest Meeting Meter core (src/src/components/everest.tsx).

The numeric models of the widget are embedded over exact arithmetic: the
oxygen model, cost accrual, participant clamping, the stopwatch and the
note log use `ℚ` (every operation there is field arithmetic with `max`/`min`,
so a rational embedding is faithful and executable), while the altitude
mapper needs `Real.log` and is embedded over `ℝ`.
-/

/-- Output record of `computeO2Fraction` (fields as in the source object). -/
structure O2Reading where
  frac : ℚ
  percent : ℚ
  consumed_L : ℚ
  volume_L : ℚ
deriving DecidableEq, Repr

/-- Embedding of `computeO2Fraction` (everest.tsx lines 40–66).
Arguments are positional: seconds, onsite, roomArea, ceiling, perPersonO2Lpm. -/
def computeO2Fraction (seconds onsite roomArea ceiling perPersonO2Lpm : ℚ) :
    O2Reading :=
  let volume_m3 := max 1 (roomArea * ceiling)
  let volume_L := volume_m3 * 1000
  let f0 : ℚ := 0.209
  let totalO2_L_initial := volume_L * f0
  let consumed := onsite * perPersonO2Lpm * (seconds / 60)
  let remaining := max 0 (totalO2_L_initial - consumed)
  let frac := max 0.01 (remaining / volume_L)
  { frac := min f0 frac
    percent := min 20.9 (min f0 frac * 100)
    consumed_L := max 0 consumed
    volume_L := volume_L }

/-- Embedding of `equivalentAltitudeFromFraction` (everest.tsx lines 31–37). -/
noncomputable def equivalentAltitudeFromFraction (frac : ℝ) : ℝ :=
  if frac ≤ 0 then 8848
  else max 0 (min 8848 (-7000 * Real.log (frac / 0.209)))

/-- Embedding of the live-cost computation (everest.tsx lines 228–229):
`participants * (hourlyCostPerPerson / 3600) * elapsed`. -/
def liveCost (elapsedSeconds totalParticipants hourlyCostPerPerson : ℚ) : ℚ :=
  totalParticipants * (hourlyCostPerPerson / 3600) * elapsedSeconds

/-- Embedding of `Math.max(0, Math.floor(x))` used for people counts
(everest.tsx lines 207–208). -/
def clampCount (x : ℚ) : ℚ :=
  max 0 (⌊x⌋ : ℚ)

/-- The orchestrator's input parameters together with the clock's elapsed
seconds (the state the derived values are recomputed from). -/
structure MeetingState where
  numOnsite : ℚ
  numRemote : ℚ
  roomArea : ℚ
  hourlyCostPerPerson : ℚ
  currency : String
  o2Lpm : ℚ
  elapsed : ℚ
deriving DecidableEq, Repr

/-- The derived oxygen reading (the `o2` useMemo, everest.tsx lines 212–221):
only elapsed seconds, the clamped onsite count, room area (ceiling fixed at 3)
and the consumption rate feed `computeO2Fraction`. -/
def derivedO2 (s : MeetingState) : O2Reading :=
  computeO2Fraction s.elapsed (clampCount s.numOnsite) s.roomArea 3 s.o2Lpm

/-- The derived live cost (everest.tsx lines 207–229): participants is the sum
of the clamped onsite and remote counts. -/
def derivedLiveCost (s : MeetingState) : ℚ :=
  liveCost s.elapsed (clampCount s.numOnsite + clampCount s.numRemote)
    s.hourlyCostPerPerson

/-- Stopwatch state: the `isRunning` flag, accumulated `elapsed` seconds and
`lastTickRef` (milliseconds of the last accepted sample, `none` when cleared). -/
structure ClockState where
  running : Bool
  elapsed : ℚ
  lastTick : Option ℚ
deriving DecidableEq, Repr

/-- Clock intents and tick samples; `tick now` carries the wall-clock sample
in milliseconds (`performance.now()`). -/
inductive ClockEvent where
  | start : ClockEvent
  | pause : ClockEvent
  | reset : ClockEvent
  | tick : ℚ → ClockEvent
deriving DecidableEq, Repr

/-- One step of the clock (the timer useEffect, everest.tsx lines 186–205,
plus the Start/Pause/Reset intents). While running, a tick computes
`dt = (now - lastTick)/1000`; when `lastTick` is null it is first set to `now`
(so `dt = 0`); only when `dt ≥ 0.05` is `dt` added and the baseline advanced.
Pause and reset clear the baseline (the effect sets `lastTickRef` to null when
not running); no tick fires while not running (no rAF is registered). -/
def clockStep (s : ClockState) (e : ClockEvent) : ClockState :=
  match e with
  | ClockEvent.start => { s with running := true }
  | ClockEvent.pause => { s with running := false, lastTick := none }
  | ClockEvent.reset => { running := false, elapsed := 0, lastTick := none }
  | ClockEvent.tick now =>
      if s.running then
        let last := s.lastTick.getD now
        let dt := (now - last) / 1000
        if 0.05 ≤ dt then
          { s with elapsed := s.elapsed + dt, lastTick := some now }
        else
          { s with lastTick := some last }
      else s

/-- Run the clock over a sequence of events. -/
def clockRun (s : ClockState) (evs : List ClockEvent) : ClockState :=
  evs.foldl clockStep s

/-- A note record (everest.tsx line 232): id, timestamp (clock seconds at
creation), topic, text. -/
structure Note where
  id : String
  ts : ℚ
  topic : String
  text : String
deriving DecidableEq, Repr

/-- Embedding of `String.prototype.trim` as used in `addNote`: drop leading
and trailing whitespace. Written over the character list so it is fully
executable. -/
def jsTrim (s : String) : String :=
  String.mk
    (((s.data.dropWhile Char.isWhitespace).reverse.dropWhile
        Char.isWhitespace).reverse)

/-- Embedding of `addNote` (everest.tsx lines 237–246). `newId` is the value
produced by the external `uuid()` generator, passed explicitly; `elapsed` is
the clock's current value. Both strings are trimmed; if both trim to empty
the list is unchanged; otherwise a note is prepended with the trimmed topic
(or the `"(untitled)"` placeholder) and the trimmed text. -/
def addNote (topic text newId : String) (elapsed : ℚ) (notes : List Note) :
    List Note :=
  let t := jsTrim topic
  let n := jsTrim text
  if t = "" ∧ n = "" then notes
  else { id := newId, ts := elapsed, topic := if t = "" then "(untitled)" else t,
         text := n } :: notes

/-- Operations on the note log: `addNote` and the Clear button
(everest.tsx line 472, `setNotes([])`). -/
inductive NoteOp where
  | add : String → String → String → ℚ → NoteOp
  | clear : NoteOp
deriving DecidableEq, Repr

/-- Apply one note operation. -/
def applyNoteOp (notes : List Note) (op : NoteOp) : List Note :=
  match op with
  | NoteOp.add topic text newId ts => addNote topic text newId ts notes
  | NoteOp.clear => []

/-- Run a sequence of note operations from the initial empty log. -/
def runNoteOps (ops : List NoteOp) : List Note :=
  ops.foldl applyNoteOp []

/-- The whole widget state: session parameters, the clock, the two input
drafts and the note log. -/
structure AppState where
  numOnsite : ℚ
  numRemote : ℚ
  roomArea : ℚ
  hourlyCostPerPerson : ℚ
  currency : String
  o2Lpm : ℚ
  clock : ClockState
  topicDraft : String
  noteDraft : String
  notes : List Note
deriving DecidableEq, Repr

/-- The Reset button's onClick (everest.tsx lines 356–363): it calls only
`setIsRunning(false)` and `setElapsed(0)`; the timer effect then clears the
tick baseline. No other state atom is written. -/
def resetIntent (s : AppState) : AppState :=
  { s with clock := { running := false, elapsed := 0, lastTick := none } }

/-- Claim C3: `liveCost(elapsedSeconds, totalParticipants, hourlyCostPerPerson)`
equals `totalParticipants × (hourlyCostPerPerson / 3600) × elapsedSeconds`, is
exactly linear in elapsedSeconds (doubling elapsedSeconds doubles liveCost),
and with hourlyCostPerPerson = 80, 6 total participants and
elapsedSeconds = 3600 it equals 480. -/
theorem liveCost_formula_linear_scenario (e n h : ℚ) :
    liveCost e n h = n * (h / 3600) * e ∧
    liveCost (2 * e) n h = 2 * liveCost e n h ∧
    liveCost 3600 6 80 = 480 :=
  ⟨rfl, by unfold liveCost; ring, by norm_num [liveCost]⟩

/-- Claim C6: for every prior state (any running flag, any elapsed value,
including never started), the reset intent yields elapsedSeconds = 0 and
running = false. -/
theorem resetIntent_zeroes_clock (s : AppState) :
    (resetIntent s).clock.elapsed = 0 ∧ (resetIntent s).clock.running = false :=
  ⟨rfl, rfl⟩

/-- Claim C9: the reset intent mutates only the clock: the note log, the topic
and note drafts, and every session parameter are unchanged. -/
theorem resetIntent_frame (s : AppState) :
    (resetIntent s).notes = s.notes ∧
    (resetIntent s).topicDraft = s.topicDraft ∧
    (resetIntent s).noteDraft = s.noteDraft ∧
    (resetIntent s).numOnsite = s.numOnsite ∧
    (resetIntent s).numRemote = s.numRemote ∧
    (resetIntent s).roomArea = s.roomArea ∧
    (resetIntent s).hourlyCostPerPerson = s.hourlyCostPerPerson ∧
    (resetIntent s).currency = s.currency ∧
    (resetIntent s).o2Lpm = s.o2Lpm :=
  ⟨rfl, rfl, rfl, rfl, rfl, rfl, rfl, rfl, rfl⟩

/-- Claim C8: with roomAreaM2 = 30, ceilingHeightM = 3, onsitePeople = 4,
o2ConsumptionLpm = 0.6 and elapsedSeconds = 600, the oxygen model returns
roomVolumeLiters = 90000, consumedLiters = 24, fraction = 18786/90000
(below 0.209, so the clamp does not trigger) and percent = 3131/150 ≈ 20.87. -/
theorem computeO2_scenario :
    (computeO2Fraction 600 4 30 3 0.6).volume_L = 90000 ∧
    (computeO2Fraction 600 4 30 3 0.6).consumed_L = 24 ∧
    (computeO2Fraction 600 4 30 3 0.6).frac = 18786 / 90000 ∧
    (computeO2Fraction 600 4 30 3 0.6).frac < 0.209 ∧
    (computeO2Fraction 600 4 30 3 0.6).percent = 3131 / 150 := by
  norm_num [computeO2Fraction, max_def, min_def]

/-- Helper: any non-reset event never decreases the accumulated elapsed
seconds (an accepted tick adds `dt ≥ 0.05 ≥ 0`; everything else leaves
`elapsed` unchanged). -/
theorem clockStep_elapsed_le (s : ClockState) (ev : ClockEvent)
    (h : ev ≠ ClockEvent.reset) : s.elapsed ≤ (clockStep s ev).elapsed := by
  cases ev with
  | start => exact le_refl _
  | pause => exact le_refl _
  | reset => exact absurd rfl h
  | tick now =>
    simp only [clockStep]
    by_cases hr : s.running = true
    · simp only [hr, if_true]
      by_cases hdt : (0.05 : ℚ) ≤ (now - s.lastTick.getD now) / 1000
      · rw [if_pos hdt]
        have h0 : (0 : ℚ) ≤ (now - s.lastTick.getD now) / 1000 :=
          le_trans (by norm_num) hdt
        exact le_add_of_nonneg_right h0
      · rw [if_neg hdt]
    · simp [hr]

/-- Helper: over any reset-free event sequence the elapsed seconds are
non-decreasing. -/
theorem clockRun_elapsed_le (s : ClockState) (evs : List ClockEvent)
    (h : ClockEvent.reset ∉ evs) : s.elapsed ≤ (clockRun s evs).elapsed := by
  induction evs generalizing s with
  | nil => exact le_refl _
  | cons ev rest ih =>
    have h1 : ev ≠ ClockEvent.reset := by
      rintro rfl; exact h (List.mem_cons_self _ _)
    have h2 : ClockEvent.reset ∉ rest := fun hm => h (List.mem_cons_of_mem _ hm)
    simp only [clockRun, List.foldl_cons]
    calc s.elapsed ≤ (clockStep s ev).elapsed := clockStep_elapsed_le s ev h1
      _ ≤ (clockRun (clockStep s ev) rest).elapsed := ih (clockStep s ev) h2

/-- Claim C4: for every event sequence, elapsedSeconds never decreases except
when reset sets it to 0 (conjuncts 1, 2 and 7); it is frozen while not
running — start, pause and any tick arriving while paused leave it unchanged
(conjuncts 3–5); and the first sample after a start (tick baseline cleared,
`lastTick = none`) adds zero delta (conjunct 6), so wall-clock time that
passed while paused is never added. -/
theorem clock_elapsed_props (s : ClockState) (ev : ClockEvent) (now : ℚ)
    (evs : List ClockEvent) :
    (ev ≠ ClockEvent.reset → s.elapsed ≤ (clockStep s ev).elapsed) ∧
    (clockStep s ClockEvent.reset).elapsed = 0 ∧
    (clockStep s ClockEvent.start).elapsed = s.elapsed ∧
    (clockStep s ClockEvent.pause).elapsed = s.elapsed ∧
    (s.running = false → (clockStep s (ClockEvent.tick now)).elapsed = s.elapsed) ∧
    (s.lastTick = none → (clockStep s (ClockEvent.tick now)).elapsed = s.elapsed) ∧
    (ClockEvent.reset ∉ evs → s.elapsed ≤ (clockRun s evs).elapsed) := by
  refine ⟨clockStep_elapsed_le s ev, rfl, rfl, rfl, ?_, ?_,
    clockRun_elapsed_le s evs⟩
  · intro h; simp [clockStep, h]
  · intro h
    simp only [clockStep, h, Option.getD_none, sub_self, zero_div]
    by_cases hr : s.running = true
    · rw [if_pos hr, if_neg (by norm_num : ¬ (0.05 : ℚ) ≤ 0)]
    · rw [if_neg hr]

/-- Witness for claim C4 at concrete clock states: an accepted tick does not
decrease elapsed; a tick with cleared baseline adds nothing; a tick while
paused adds nothing; a reset-free run does not decrease elapsed. -/
theorem clock_elapsed_props_witness :
    ((2:ℚ) ≤ (clockStep ⟨true, 2, some 0⟩ (ClockEvent.tick 100)).elapsed) ∧
    (clockStep ⟨true, 2, none⟩ (ClockEvent.tick 100)).elapsed = 2 ∧
    (clockStep ⟨false, 2, some 0⟩ (ClockEvent.tick 100)).elapsed = 2 ∧
    ((2:ℚ) ≤ (clockRun ⟨true, 2, some 0⟩
        [ClockEvent.start, ClockEvent.tick 100]).elapsed) := by
  refine ⟨?_, ?_, ?_, ?_⟩
  · exact (clock_elapsed_props ⟨true, 2, some 0⟩ (ClockEvent.tick 100) 100 []).1
      (by decide)
  · exact (clock_elapsed_props ⟨true, 2, none⟩ ClockEvent.start 100
      []).2.2.2.2.2.1 rfl
  · exact (clock_elapsed_props ⟨false, 2, some 0⟩ ClockEvent.start 100
      []).2.2.2.2.1 rfl
  · exact (clock_elapsed_props ⟨true, 2, some 0⟩ ClockEvent.start 100
      [ClockEvent.start, ClockEvent.tick 100]).2.2.2.2.2.2 (by decide)

/-- Claim C7: `addNote(topic, text)` trims both strings; if both trim to empty
it leaves the note sequence unchanged; otherwise it prepends a note carrying
the supplied fresh id (which keeps the id list duplicate-free when it is new),
the current clock elapsed seconds as timestamp, the trimmed topic or the
placeholder when the trimmed topic is empty, and the trimmed text; in
particular `addNote("", "")` changes nothing and `addNote("  Roadmap  ", "")`
creates a note with topic "Roadmap" and empty text. -/
theorem addNote_contract (topic text newId : String) (e : ℚ)
    (notes : List Note) :
    (jsTrim topic = "" ∧ jsTrim text = "" →
      addNote topic text newId e notes = notes) ∧
    (¬(jsTrim topic = "" ∧ jsTrim text = "") →
      addNote topic text newId e notes =
        { id := newId, ts := e,
          topic := if jsTrim topic = "" then "(untitled)" else jsTrim topic,
          text := jsTrim text } :: notes) ∧
    ((notes.map Note.id).Nodup → newId ∉ notes.map Note.id →
      ((addNote topic text newId e notes).map Note.id).Nodup) ∧
    addNote "" "" newId e notes = notes ∧
    addNote "  Roadmap  " "" newId e notes =
      { id := newId, ts := e, topic := "Roadmap", text := "" } :: notes := by
  refine ⟨?_, ?_, ?_, ?_, ?_⟩
  · intro h
    simp only [addNote]
    rw [if_pos h]
  · intro h
    simp only [addNote]
    rw [if_neg h]
  · intro hnd hmem
    by_cases hc : jsTrim topic = "" ∧ jsTrim text = ""
    · simp only [addNote]
      rw [if_pos hc]
      exact hnd
    · simp only [addNote]
      rw [if_neg hc]
      simp only [List.map_cons]
      exact List.nodup_cons.mpr ⟨hmem, hnd⟩
  · simp only [addNote]
    rw [if_pos ⟨by decide, by decide⟩]
  · simp only [addNote]
    rw [if_neg (by decide), show jsTrim "  Roadmap  " = "Roadmap" from by decide,
      show jsTrim "" = "" from by decide]
    rw [if_neg (by decide)]

/-- Witness for claim C7: adding a note with non-blank topic and text prepends
it, and with a fresh id the id list stays duplicate-free. -/
theorem addNote_contract_witness :
    addNote "a" "b" "id-1" 42 [] =
      [{ id := "id-1", ts := 42, topic := jsTrim "a", text := jsTrim "b" }] ∧
    ((addNote "a" "b" "id-1" 42 []).map Note.id).Nodup := by
  constructor
  · have h := (addNote_contract "a" "b" "id-1" 42 []).2.1 (by decide)
    rw [h, if_neg (by decide)]
  · exact (addNote_contract "a" "b" "id-1" 42 []).2.2.1 (by decide) (by decide)

/-- Helper: running note operations preserves the invariant that every stored
note has a non-empty topic (an added note's topic is either the non-empty
trimmed topic or the placeholder, and clear empties the log). -/
theorem foldl_noteOps_topic_ne_empty (ops : List NoteOp) (notes : List Note)
    (h : ∀ m ∈ notes, m.topic ≠ "") :
    ∀ m ∈ ops.foldl applyNoteOp notes, m.topic ≠ "" := by
  induction ops generalizing notes with
  | nil => simpa using h
  | cons op rest ih =>
    simp only [List.foldl_cons]
    refine ih (applyNoteOp notes op) ?_
    intro m' hm'
    cases op with
    | clear => simp [applyNoteOp] at hm'
    | add t x i ts =>
      simp only [applyNoteOp, addNote] at hm'
      by_cases hc : jsTrim t = "" ∧ jsTrim x = ""
      · rw [if_pos hc] at hm'
        exact h m' hm'
      · rw [if_neg hc] at hm'
        rcases List.mem_cons.mp hm' with h1 | h1
        · subst h1
          by_cases ht : jsTrim t = ""
          · simp only [ht, if_true]
            decide
          · simp only [ht, if_false]
            exact ht
        · exact h m' h1

/-- Claim C10: in every state reachable by any sequence of addNote and
clearAll operations, every stored note has a non-empty topic string. -/
theorem runNoteOps_topics_nonempty (ops : List NoteOp) :
    ∀ m ∈ runNoteOps ops, m.topic ≠ "" :=
  foldl_noteOps_topic_ne_empty ops [] (by simp)

/-- Witness for claim C10: the note produced by one concrete addNote has a
non-empty topic. -/
theorem runNoteOps_topics_nonempty_witness :
    ({ id := "i", ts := 0, topic := "A", text := "b" } : Note).topic ≠ "" :=
  runNoteOps_topics_nonempty [NoteOp.add "A" "b" "i" 0]
    { id := "i", ts := 0, topic := "A", text := "b" } (by decide)

/-- Claim C1: for elapsedSeconds ≥ 0 and onsitePeople ≥ 0 (room area, ceiling
height arbitrary, consumption rate in its documented domain `> 0`), the
fraction returned by the oxygen model lies in [0.01, 0.209], and with all
other arguments fixed it is non-increasing as elapsedSeconds increases. -/
theorem computeO2_frac_bounds_mono (s1 s2 onsite roomArea ceiling lpm : ℚ)
    (_hs0 : 0 ≤ s1) (hs : s1 ≤ s2) (hon : 0 ≤ onsite) (hlpm : 0 < lpm) :
    0.01 ≤ (computeO2Fraction s1 onsite roomArea ceiling lpm).frac ∧
    (computeO2Fraction s1 onsite roomArea ceiling lpm).frac ≤ 0.209 ∧
    (computeO2Fraction s2 onsite roomArea ceiling lpm).frac ≤
      (computeO2Fraction s1 onsite roomArea ceiling lpm).frac := by
  refine ⟨?_, ?_, ?_⟩
  · simp only [computeO2Fraction]
    exact le_min (by norm_num) (le_max_left _ _)
  · simp only [computeO2Fraction]
    exact min_le_left _ _
  · simp only [computeO2Fraction]
    have hV : (0 : ℚ) < max 1 (roomArea * ceiling) * 1000 :=
      mul_pos (lt_of_lt_of_le one_pos (le_max_left _ _)) (by norm_num)
    have hc : (0 : ℚ) ≤ onsite * lpm := mul_nonneg hon hlpm.le
    have h1 : onsite * lpm * (s1 / 60) ≤ onsite * lpm * (s2 / 60) :=
      mul_le_mul_of_nonneg_left (by linarith) hc
    have h2 : max 1 (roomArea * ceiling) * 1000 * 0.209 - onsite * lpm * (s2 / 60) ≤
        max 1 (roomArea * ceiling) * 1000 * 0.209 - onsite * lpm * (s1 / 60) :=
      sub_le_sub_left h1 _
    have h3 := max_le_max (le_refl (0 : ℚ)) h2
    have h4 := (div_le_div_iff_of_pos_right hV).mpr h3
    exact min_le_min (le_refl _) (max_le_max (le_refl _) h4)

/-- Witness for claim C1 at the spec's scenario parameters: the fraction is in
bounds at time 0 and does not increase from time 0 to time 600. -/
theorem computeO2_frac_bounds_mono_witness :
    0.01 ≤ (computeO2Fraction 0 4 30 3 0.6).frac ∧
    (computeO2Fraction 0 4 30 3 0.6).frac ≤ 0.209 ∧
    (computeO2Fraction 600 4 30 3 0.6).frac ≤
      (computeO2Fraction 0 4 30 3 0.6).frac :=
  computeO2_frac_bounds_mono 0 600 4 30 3 0.6 (by norm_num) (by norm_num)
    (by norm_num) (by norm_num)

/-- Helper: for any fraction at or above the initial 0.209 the altitude clamp
drives the result to exactly 0. -/
theorem equivAlt_eq_zero_of_ge (f : ℝ) (hf : 0.209 ≤ f) :
    equivalentAltitudeFromFraction f = 0 := by
  have hf0 : (0 : ℝ) < f := lt_of_lt_of_le (by norm_num) hf
  unfold equivalentAltitudeFromFraction
  rw [if_neg (not_le.mpr hf0)]
  have hr : (1 : ℝ) ≤ f / 0.209 := (one_le_div (by norm_num)).mpr hf
  have hlog : (0 : ℝ) ≤ Real.log (f / 0.209) := Real.log_nonneg hr
  have hh : -7000 * Real.log (f / 0.209) ≤ 0 := by nlinarith
  rw [min_eq_right (le_trans hh (by norm_num)), max_eq_left hh]

/-- Counterexample for claim C2: the altitude mapper is not strictly
decreasing — 0.3 < 0.4 yet both fractions map to the same altitude (the lower
clamp makes the function constant at 0 on [0.209, ∞)). -/
theorem equivalentAltitude_strict_decrease_cex :
    (0.3 : ℝ) < 0.4 ∧
    equivalentAltitudeFromFraction 0.3 = equivalentAltitudeFromFraction 0.4 := by
  constructor
  · norm_num
  · rw [equivAlt_eq_zero_of_ge 0.3 (by norm_num),
      equivAlt_eq_zero_of_ge 0.4 (by norm_num)]

/-- Claim C2 (amended): for every real input fraction the equivalent altitude
lies in [0, 8848], equals exactly 8848 whenever the fraction is ≤ 0, and is
non-increasing in the fraction (a lower oxygen fraction always yields a higher
or equal equivalent altitude); strict decrease does not hold because of the
clamps. -/
theorem equivalentAltitude_bounds_antitone (f f1 f2 : ℝ) (hle : f1 ≤ f2) :
    0 ≤ equivalentAltitudeFromFraction f ∧
    equivalentAltitudeFromFraction f ≤ 8848 ∧
    (f ≤ 0 → equivalentAltitudeFromFraction f = 8848) ∧
    equivalentAltitudeFromFraction f2 ≤ equivalentAltitudeFromFraction f1 := by
  have hbounds : ∀ g : ℝ, 0 ≤ equivalentAltitudeFromFraction g ∧
      equivalentAltitudeFromFraction g ≤ 8848 := by
    intro g
    unfold equivalentAltitudeFromFraction
    by_cases hg : g ≤ 0
    · rw [if_pos hg]; norm_num
    · rw [if_neg hg]
      exact ⟨le_max_left _ _, max_le (by norm_num) (min_le_left _ _)⟩
  refine ⟨(hbounds f).1, (hbounds f).2, ?_, ?_⟩
  · intro hf
    unfold equivalentAltitudeFromFraction
    rw [if_pos hf]
  · by_cases h2 : f2 ≤ 0
    · have h1 : f1 ≤ 0 := le_trans hle h2
      unfold equivalentAltitudeFromFraction
      rw [if_pos h1, if_pos h2]
    · by_cases h1 : f1 ≤ 0
      · have e1 : equivalentAltitudeFromFraction f1 = 8848 := by
          unfold equivalentAltitudeFromFraction
          rw [if_pos h1]
        rw [e1]
        exact (hbounds f2).2
      · push_neg at h1 h2
        have hd : f1 / 0.209 ≤ f2 / 0.209 :=
          (div_le_div_iff_of_pos_right (by norm_num)).mpr hle
        have hlog : Real.log (f1 / 0.209) ≤ Real.log (f2 / 0.209) :=
          Real.log_le_log (by positivity) hd
        have hmul : -7000 * Real.log (f2 / 0.209) ≤
            -7000 * Real.log (f1 / 0.209) := by nlinarith
        unfold equivalentAltitudeFromFraction
        rw [if_neg (not_le.mpr h1), if_neg (not_le.mpr h2)]
        exact max_le_max (le_refl _) (min_le_min (le_refl _) hmul)

/-- Witness for claim C2 (amended) at concrete fractions: bounds at 0.1, the
cap at a non-positive fraction, and antitonicity from 0.1 to 0.2. -/
theorem equivalentAltitude_bounds_antitone_witness :
    0 ≤ equivalentAltitudeFromFraction 0.1 ∧
    equivalentAltitudeFromFraction 0.1 ≤ 8848 ∧
    equivalentAltitudeFromFraction (-1) = 8848 ∧
    equivalentAltitudeFromFraction 0.2 ≤ equivalentAltitudeFromFraction 0.1 := by
  have h := equivalentAltitude_bounds_antitone 0.1 0.1 0.2 (by norm_num)
  have h2 := equivalentAltitude_bounds_antitone (-1) 0 0 (le_refl 0)
  exact ⟨h.1, h.2.1, h2.2.2.1 (by norm_num), h.2.2.2⟩

/-- Counterexample for claim C5: two states that differ only in remotePeople
(2 vs 3; onsite count, every other parameter and elapsedSeconds equal) give
identical oxygen output but ALSO identical liveCost, because elapsedSeconds
is 0 — so "liveCost differs between the two states" fails as stated. -/
theorem remote_change_equal_cost_cex :
    (⟨4, 2, 30, 80, "CHF", 0.6, 0⟩ : MeetingState).numRemote ≠
      (⟨4, 3, 30, 80, "CHF", 0.6, 0⟩ : MeetingState).numRemote ∧
    (⟨4, 2, 30, 80, "CHF", 0.6, 0⟩ : MeetingState).numOnsite =
      (⟨4, 3, 30, 80, "CHF", 0.6, 0⟩ : MeetingState).numOnsite ∧
    (⟨4, 2, 30, 80, "CHF", 0.6, 0⟩ : MeetingState).elapsed =
      (⟨4, 3, 30, 80, "CHF", 0.6, 0⟩ : MeetingState).elapsed ∧
    derivedO2 ⟨4, 2, 30, 80, "CHF", 0.6, 0⟩ =
      derivedO2 ⟨4, 3, 30, 80, "CHF", 0.6, 0⟩ ∧
    derivedLiveCost ⟨4, 2, 30, 80, "CHF", 0.6, 0⟩ =
      derivedLiveCost ⟨4, 3, 30, 80, "CHF", 0.6, 0⟩ := by
  refine ⟨by norm_num, rfl, rfl, rfl, ?_⟩
  simp [derivedLiveCost, liveCost]

/-- Claim C5 (amended): a change of remotePeople alone never changes the
oxygen reading; and it does change liveCost provided elapsedSeconds > 0,
hourlyCostPerPerson > 0 and the two remote values (each ≥ 0, per the
documented domain) have different integer floors. -/
theorem remote_noninterference_amended (s : MeetingState) (r1 r2 : ℚ)
    (h1 : 0 ≤ r1) (h2 : 0 ≤ r2) (hne : ⌊r1⌋ ≠ ⌊r2⌋)
    (he : 0 < s.elapsed) (hc : 0 < s.hourlyCostPerPerson) :
    derivedO2 { s with numRemote := r1 } = derivedO2 { s with numRemote := r2 } ∧
    derivedLiveCost { s with numRemote := r1 } ≠
      derivedLiveCost { s with numRemote := r2 } := by
  refine ⟨rfl, ?_⟩
  simp only [derivedLiveCost, liveCost, clampCount]
  have hf1 : (0 : ℚ) ≤ (⌊r1⌋ : ℚ) := by exact_mod_cast Int.floor_nonneg.mpr h1
  have hf2 : (0 : ℚ) ≤ (⌊r2⌋ : ℚ) := by exact_mod_cast Int.floor_nonneg.mpr h2
  rw [max_eq_right hf1, max_eq_right hf2]
  have hk : s.hourlyCostPerPerson / 3600 * s.elapsed ≠ 0 :=
    (mul_pos (div_pos hc (by norm_num)) he).ne'
  intro heq
  apply hne
  rw [mul_assoc, mul_assoc] at heq
  have h4 := mul_right_cancel₀ hk heq
  have h5 : (⌊r1⌋ : ℚ) = (⌊r2⌋ : ℚ) := by linarith
  exact_mod_cast h5

/-- Witness for claim C5 (amended): after one hour at 80 per hour, changing
remotePeople from 2 to 3 leaves the oxygen reading unchanged but changes the
live cost. -/
theorem remote_noninterference_amended_witness :
    derivedO2 ⟨4, 2, 30, 80, "CHF", 0.6, 3600⟩ =
      derivedO2 ⟨4, 3, 30, 80, "CHF", 0.6, 3600⟩ ∧
    derivedLiveCost ⟨4, 2, 30, 80, "CHF", 0.6, 3600⟩ ≠
      derivedLiveCost ⟨4, 3, 30, 80, "CHF", 0.6, 3600⟩ :=
  remote_noninterference_amended ⟨4, 0, 30, 80, "CHF", 0.6, 3600⟩ 2 3
    (by norm_num) (by norm_num) (by norm_num) (by norm_num) (by norm_num)
